import Mathlib

/-!
Verification development for the falling-sand material cellular automaton
(`components/effects/falling-sand.tsx` of the OGL-effects repository).

The grid is a flat row-major buffer indexed by `x + y * width`; `cells` is the
current buffer, `nextCells` the buffer written during a tick, `age` a shared
per-cell counter.  We model the buffers as total functions `Nat → Material`
(reads that the original performs are all in range under the hypotheses used
by the theorems; writes are `Function.update`).

Randomness: every `Math.random()` comparison in the source is a draw whose two
outcomes both have probability strictly between 0 and 1, so a tick is a
function of (grid, traversal order, per-cell boolean draws).  Quantifying over
all orders that are permutations of the index range and over all draw
assignments covers every outcome of a tick.  Densities are the source values
scaled by 10 so that all comparisons are exact over `Nat`
(0, 3, 2, 10, 0.5, 4, 1, 1.5, 0.1, 2.5 become 0, 30, 20, 100, 5, 40, 10, 15, 1, 25).
-/

namespace FallingSand

/-- The material enumeration of the source (`enum Material`). -/
inductive Material where
  | EMPTY
  | SAND
  | WATER
  | WALL
  | FIRE
  | WOOD
  | PLANT
  | OIL
  | SMOKE
  | SALT
deriving DecidableEq

/-- Per-material static record (`interface MaterialProps`), color omitted
(presentation only).  `density` is scaled by 10, see the header comment. -/
structure MaterialRec where
  density : Nat
  flammable : Bool
  lifespan : Nat
  spreadRate : Nat

/-- The `MATERIALS` table of the source. -/
def MATERIALS : Material → MaterialRec
  | .EMPTY => ⟨0, false, 0, 0⟩
  | .SAND => ⟨30, false, 0, 0⟩
  | .WATER => ⟨20, false, 0, 4⟩
  | .WALL => ⟨100, false, 0, 0⟩
  | .FIRE => ⟨5, false, 40, 2⟩
  | .WOOD => ⟨40, true, 0, 0⟩
  | .PLANT => ⟨10, true, 0, 1⟩
  | .OIL => ⟨15, true, 0, 3⟩
  | .SMOKE => ⟨1, false, 100, 1⟩
  | .SALT => ⟨25, false, 0, 0⟩

/-- The grid state (`gridRef.current` minus the `nextCells` scratch buffer,
which each tick overwrites with `cells` before use). -/
structure Grid where
  width : Nat
  height : Nat
  cells : Nat → Material
  age : Nat → Nat

/-- The mutable state threaded through one tick: the buffer being written and
the shared age array. -/
structure SimState where
  next : Nat → Material
  age : Nat → Nat

/-- One assignment of outcomes to the random draws made while processing a
single cell.  Each field models one `Math.random()` comparison of the source;
`ignite` is keyed by the neighbor index because the ignition loop draws once
per neighbor.  `plantDir` models `Math.floor(Math.random() * 5)`, whose value
is always in 0..4. -/
structure Choice where
  sandDir : Bool
  sandDissolve : Bool
  liqDir : Bool
  liqSpread : Bool
  liqSpreadDir : Bool
  fireRise : Bool
  ignite : Nat → Bool
  fireSmoke : Bool
  smokeRise : Bool
  smokeDir : Bool
  smokeDiag : Bool
  smokeLat : Bool
  smokeLatDir : Bool
  plantGrow : Bool
  plantDir : Nat
  plantWither : Bool

/-- A fixed all-false draw assignment, used for concrete evaluations. -/
def ch0 : Choice :=
  { sandDir := false, sandDissolve := false, liqDir := false, liqSpread := false,
    liqSpreadDir := false, fireRise := false, ignite := fun _ => false,
    fireSmoke := false, smokeRise := false, smokeDir := false, smokeDiag := false,
    smokeLat := false, smokeLatDir := false, plantGrow := false, plantDir := 0,
    plantWither := false }

/-- The all-false draw assignment except that the fire-rise draw succeeds. -/
def ch1 : Choice := { ch0 with fireRise := true }

/-- The 3x3 neighborhood indices of `i`, in the loop order of the source
(`dy` outer from -1 to 1, `dx` inner from -1 to 1, center included), used by
the water-extinguish scan. -/
def neighborhood9 (w i : Nat) : List Nat :=
  [i - w - 1, i - w, i - w + 1, i - 1, i, i + 1, i + w - 1, i + w, i + w + 1]

/-- The 8 neighbor indices of `i` (center excluded), in the loop order of the
fire-spread scan. -/
def neighborhood8 (w i : Nat) : List Nat :=
  [i - w - 1, i - w, i - w + 1, i - 1, i + 1, i + w - 1, i + w, i + w + 1]

/-- The water-extinguish scan of `updateLiquid` (source lines 698-709): for
each cell of the 3x3 neighborhood, if the CURRENT buffer holds Fire there,
write Smoke into the next buffer. -/
def extinguishScan (cur : Nat → Material) (w i : Nat) (n : Nat → Material) : Nat → Material :=
  (neighborhood9 w i).foldl
    (fun acc j => if cur j = Material.FIRE then Function.update acc j Material.SMOKE else acc) n

/-- `updateSand` of the source: gravity move straight down, else one random
diagonal, else the other; afterwards the (unreachable, see C4) salt
dissolution check.  `m` is SAND or SALT. -/
def updateSand (w : Nat) (cur : Nat → Material) (c : Choice) (i : Nat) (m : Material)
    (s : SimState) : SimState :=
  let density := (MATERIALS m).density
  let below := i + w
  if cur below = Material.EMPTY ∨
      ((MATERIALS (cur below)).density < density ∧ cur below ≠ Material.WALL) then
    { s with next := Function.update (Function.update s.next below m) i (cur below) }
  else
    let diag1 := if c.sandDir then i + w + 1 else i + w - 1
    let diag2 := if c.sandDir then i + w - 1 else i + w + 1
    let s1 :=
      if cur diag1 = Material.EMPTY ∨
          ((MATERIALS (cur diag1)).density < density ∧ cur diag1 ≠ Material.WALL) then
        { s with next := Function.update (Function.update s.next diag1 m) i (cur diag1) }
      else if cur diag2 = Material.EMPTY ∨
          ((MATERIALS (cur diag2)).density < density ∧ cur diag2 ≠ Material.WALL) then
        { s with next := Function.update (Function.update s.next diag2 m) i (cur diag2) }
      else s
    if m = Material.SALT ∧ cur below = Material.WATER ∧ c.sandDissolve then
      { s1 with next := Function.update s1.next i Material.WATER }
    else s1

/-- `updateLiquid` of the source: down, else diagonal (each with an early
return), else lateral spread, then for Water the extinguish scan.  `m` is
WATER or OIL. -/
def updateLiquid (w : Nat) (cur : Nat → Material) (c : Choice) (i : Nat) (m : Material)
    (s : SimState) : SimState :=
  let density := (MATERIALS m).density
  let below := i + w
  if cur below = Material.EMPTY ∨
      ((MATERIALS (cur below)).density < density ∧ cur below ≠ Material.WALL) then
    { s with next := Function.update (Function.update s.next below m) i (cur below) }
  else
    let diag1 := if c.liqDir then i + w + 1 else i + w - 1
    let diag2 := if c.liqDir then i + w - 1 else i + w + 1
    if cur diag1 = Material.EMPTY ∨
        ((MATERIALS (cur diag1)).density < density ∧ cur diag1 ≠ Material.WALL) then
      { s with next := Function.update (Function.update s.next diag1 m) i (cur diag1) }
    else if cur diag2 = Material.EMPTY ∨
        ((MATERIALS (cur diag2)).density < density ∧ cur diag2 ≠ Material.WALL) then
      { s with next := Function.update (Function.update s.next diag2 m) i (cur diag2) }
    else
      let s1 :=
        if c.liqSpread then
          let side := if c.liqSpreadDir then i + 1 else i - 1
          if cur side = Material.EMPTY then
            { s with next := Function.update (Function.update s.next side m) i Material.EMPTY }
          else s
        else s
      if m = Material.WATER then { s1 with next := extinguishScan cur w i s1.next } else s1

/-- `updateFire` of the source: rise into an empty cell above (copying age),
else ignite flammable neighbors (resetting their age) and possibly spawn
smoke above (age 0). -/
def updateFire (w : Nat) (cur : Nat → Material) (c : Choice) (i : Nat)
    (s : SimState) : SimState :=
  let above := i - w
  if cur above = Material.EMPTY ∧ c.fireRise then
    { next := Function.update (Function.update s.next above Material.FIRE) i Material.EMPTY,
      age := Function.update s.age above (s.age i) }
  else
    let s1 := (neighborhood8 w i).foldl
      (fun acc j =>
        if (MATERIALS (cur j)).flammable = true ∧ c.ignite j then
          { next := Function.update acc.next j Material.FIRE,
            age := Function.update acc.age j 0 }
        else acc) s
    if c.fireSmoke then
      if cur (i - w) = Material.EMPTY then
        { next := Function.update s1.next (i - w) Material.SMOKE,
          age := Function.update s1.age (i - w) 0 }
      else s1
    else s1

/-- `updateSmoke` of the source: rise, else one random up-diagonal, else
lateral spread.  No age entry is ever written. -/
def updateSmoke (w : Nat) (cur : Nat → Material) (c : Choice) (i : Nat)
    (s : SimState) : SimState :=
  let above := i - w
  if cur above = Material.EMPTY ∧ c.smokeRise then
    { s with next := Function.update (Function.update s.next above Material.SMOKE) i Material.EMPTY }
  else
    let diagUp := if c.smokeDir then i - w + 1 else i - w - 1
    if cur diagUp = Material.EMPTY ∧ c.smokeDiag then
      { s with next := Function.update (Function.update s.next diagUp Material.SMOKE) i Material.EMPTY }
    else if c.smokeLat then
      let side := if c.smokeLatDir then i + 1 else i - 1
      if cur side = Material.EMPTY then
        { s with next := Function.update (Function.update s.next side Material.SMOKE) i Material.EMPTY }
      else s
    else s

/-- The growth target of `updatePlant`: `directions[Math.floor(Math.random()*5)]`
added to `i`; the draw is always in 0..4, the default is irrelevant. -/
def plantGrowTarget (w i d : Nat) : Nat :=
  [i - w, i - w - 1, i - w + 1, i - 1, i + 1].getD d (i - w)

/-- The 5x5 scan offsets `(dx, dy)` of the plant water check, in source loop
order. -/
def plantScanOffsets : List (Int × Int) :=
  (List.range 5).flatMap fun dy => (List.range 5).map fun dx => ((dx : Int) - 2, (dy : Int) - 2)

/-- The plant water scan: a JavaScript read outside the typed array yields
`undefined`, which compares unequal to WATER, so out-of-range offsets count
as no water. -/
def waterNearby (w h : Nat) (cur : Nat → Material) (i : Nat) : Bool :=
  plantScanOffsets.any fun d =>
    let j : Int := (i : Int) + d.1 + d.2 * (w : Int)
    decide (0 ≤ j) && decide (j < ((w * h : Nat) : Int)) && decide (cur j.toNat = Material.WATER)

/-- `updatePlant` of the source: occasional growth into an empty candidate
cell, and withering when no water is within the radius-2 box. -/
def updatePlant (w h : Nat) (cur : Nat → Material) (c : Choice) (i : Nat)
    (s : SimState) : SimState :=
  let s1 :=
    if c.plantGrow then
      let growIndex := plantGrowTarget w i c.plantDir
      if cur growIndex = Material.EMPTY ∧ cur growIndex ≠ Material.WALL then
        { s with next := Function.update s.next growIndex Material.PLANT }
      else s
    else s
  if waterNearby w h cur i = false ∧ c.plantWither then
    { s1 with next := Function.update s1.next i Material.EMPTY }
  else s1

/-- The per-material dispatch of the `switch` in `updateSimulation`. -/
def applyRule (w h : Nat) (cur : Nat → Material) (c : Choice) (i : Nat) (m : Material)
    (s : SimState) : SimState :=
  match m with
  | .SAND => updateSand w cur c i m s
  | .SALT => updateSand w cur c i m s
  | .WATER => updateLiquid w cur c i m s
  | .OIL => updateLiquid w cur c i m s
  | .FIRE => updateFire w cur c i s
  | .SMOKE => updateSmoke w cur c i s
  | .PLANT => updatePlant w h cur c i s
  | _ => s

/-- Whether flat index `i` decodes to a border cell (row 0, last row,
column 0, or last column); this is the edge test of `updateSimulation`
(`x === 0 || x === width - 1 || y === 0 || y === height - 1`). -/
def isBorderIdx (w h i : Nat) : Prop :=
  i % w = 0 ∨ i % w = w - 1 ∨ i / w = 0 ∨ i / w = h - 1

instance (w h i : Nat) : Decidable (isBorderIdx w h i) := by
  unfold isBorderIdx; infer_instance

/-- The body of the per-index loop of `updateSimulation`: skip the border
ring, skip Empty, apply aging/expiry for materials with a lifespan, then the
per-material rule. -/
def processIndex (w h : Nat) (cur : Nat → Material) (c : Choice) (i : Nat)
    (s : SimState) : SimState :=
  if isBorderIdx w h i then s
  else
    let m := cur i
    if m = Material.EMPTY then s
    else
      if 0 < (MATERIALS m).lifespan then
        let s1 : SimState := { s with age := Function.update s.age i (s.age i + 1) }
        if (MATERIALS m).lifespan ≤ s1.age i then
          if m = Material.FIRE then
            { next := Function.update s1.next i Material.SMOKE,
              age := Function.update s1.age i 0 }
          else if m = Material.SMOKE then
            { next := Function.update s1.next i Material.EMPTY,
              age := Function.update s1.age i 0 }
          else s1
        else applyRule w h cur c i m s1
      else applyRule w h cur c i m s

/-- The per-tick traversal: process every index of the shuffled order in
sequence, threading the (next, age) state. -/
def tickFold (w h : Nat) (cur : Nat → Material) (ch : Nat → Choice) (L : List Nat)
    (s : SimState) : SimState :=
  L.foldl (fun acc i => processIndex w h cur (ch i) i acc) s

/-- `updateSimulation` of the source, one tick: copy `cells` into `nextCells`,
process every index of the shuffled `order` (the source shuffles all indices
of the full range), then swap the buffers.  `choices` assigns the random
draws made while processing each index. -/
def updateSimulation (g : Grid) (order : List Nat) (choices : Nat → Choice) : Grid :=
  let final := tickFold g.width g.height g.cells choices order { next := g.cells, age := g.age }
  { g with cells := final.next, age := final.age }

/-- The grid built by the initialization effect: a zero-filled (Empty) buffer
with the four wall-writing loops folded into the border predicate, age all
zero. -/
def initGrid (w h : Nat) : Grid :=
  { width := w, height := h,
    cells := fun i => if i < w * h ∧ isBorderIdx w h i then Material.WALL else Material.EMPTY,
    age := fun _ => 0 }

/-- `handleResize` of the source: new zero-filled buffers, the overlapping
top-left rectangle of the old content (cells and ages) copied over at the new
stride, then the wall loops re-applied to the cells (not the ages). -/
def handleResize (g : Grid) (w h : Nat) : Grid :=
  let copyW := min w g.width
  let copyH := min h g.height
  let copied : Nat → Material := fun i =>
    if i % w < copyW ∧ i / w < copyH then g.cells (i % w + (i / w) * g.width) else Material.EMPTY
  let copiedAge : Nat → Nat := fun i =>
    if i % w < copyW ∧ i / w < copyH then g.age (i % w + (i / w) * g.width) else 0
  { width := w, height := h,
    cells := fun i => if i < w * h ∧ isBorderIdx w h i then Material.WALL else copied i,
    age := copiedAge }

/-- JavaScript `Math.round` applied to the exact rational `p + d * (i / s)`
(with `s > 0`): rounding to the nearest integer with halves toward positive
infinity is `⌊x + 1/2⌋`, and for `x = (p*s + d*i)/s` that equals the floor
division `fdiv (2*(p*s + d*i) + s) (2*s)`. -/
def roundLerp (p d : Int) (i s : Nat) : Int :=
  Int.fdiv (2 * (p * (s : Int) + d * (i : Int)) + (s : Int)) (2 * (s : Int))

/-- The interpolated stroke points of `drawAtCurrentPosition`: `steps + 1`
points from `(prevX, prevY)` to `(x, y)` with
`steps = max(|dx|, |dy|, 1)`, each coordinate `Math.round`ed. -/
def interpPoints (prevX prevY x y : Int) : List (Int × Int) :=
  let dx := x - prevX
  let dy := y - prevY
  let steps := max (max dx.natAbs dy.natAbs) 1
  (List.range (steps + 1)).map fun i =>
    (roundLerp prevX dx i steps, roundLerp prevY dy i steps)

/-- The brush offsets: the square loop (`by` outer, `bx` inner, each from
`-r` to `r`) restricted by the circle test `bx*bx + by*by <= r*r`. -/
def brushOffsets (r : Nat) : List (Int × Int) :=
  ((List.range (2 * r + 1)).flatMap fun b =>
      (List.range (2 * r + 1)).map fun a => ((a : Int) - (r : Int), (b : Int) - (r : Int))).filter
    fun p => decide (p.1 * p.1 + p.2 * p.2 ≤ (r : Int) * (r : Int))

/-- One brush-cell write of `drawAtCurrentPosition`: bounds test against the
interior, wall protection unless drawing Wall or erasing, then the cell write
paired with the age reset.  The state is the (cells, age) pair of the grid;
width and height never change during a stroke and are passed directly. -/
def paintCell (w h : Nat) (mat : Material) (erase : Bool) (s : SimState)
    (p b : Int × Int) : SimState :=
  let drawX := p.1 + b.1
  let drawY := p.2 + b.2
  if 0 < drawX ∧ drawX < (w : Int) - 1 ∧ 0 < drawY ∧ drawY < (h : Int) - 1 then
    let idx := (drawX + drawY * (w : Int)).toNat
    if s.next idx ≠ Material.WALL ∨ mat = Material.WALL ∨ erase = true then
      { next := Function.update s.next idx (if erase then Material.EMPTY else mat),
        age := Function.update s.age idx 0 }
    else s
  else s

/-- `drawAtCurrentPosition` of the source: for every interpolated stroke point,
apply the brush disk. -/
def drawAtCurrentPosition (g : Grid) (prevX prevY x y : Int) (r : Nat) (mat : Material)
    (erase : Bool) : Grid :=
  let final := (interpPoints prevX prevY x y).foldl
    (fun acc p => (brushOffsets r).foldl (fun acc2 b => paintCell g.width g.height mat erase acc2 p b) acc)
    { next := g.cells, age := g.age }
  { g with cells := final.next, age := final.age }

/-- Iterated ticks: `step()` called once per list entry with that entry's
order and draws. -/
def runSteps (g : Grid) (L : List (List Nat × (Nat → Choice))) : Grid :=
  L.foldl (fun acc oc => updateSimulation acc oc.1 oc.2) g

/-- The error type of the specification (section 7).  The source surfaces no
error at all; this type exists only for the refinement comparison of C7. -/
inductive SimError where
  | invalidDimension
deriving DecidableEq

/-- Modelled from the words of the specification for the refinement comparison
of C7 (the source initialization performs no dimension validation): fail with
InvalidDimension when `width < 1` or `height < 1`, otherwise build the grid. -/
def specInitGrid (w h : Nat) : Except SimError Grid :=
  if w < 1 ∨ h < 1 then Except.error SimError.invalidDimension else Except.ok (initGrid w h)

/-- Modelled from the words of the specification for the refinement comparison
of C7: `resize` with dimension validation. -/
def specResizeGrid (g : Grid) (w h : Nat) : Except SimError Grid :=
  if w < 1 ∨ h < 1 then Except.error SimError.invalidDimension else Except.ok (handleResize g w h)

/-- Modelled from the words of the specification for the refinement comparison
of C5: identical to `updateLiquid` except that the extinguish scan tests the
NEXT buffer (the buffer being written) for Fire instead of the current one. -/
def extinguishScanNextBuf (w i : Nat) (n : Nat → Material) : Nat → Material :=
  (neighborhood9 w i).foldl
    (fun acc j => if acc j = Material.FIRE then Function.update acc j Material.SMOKE else acc) n

/-- Modelled from the words of the specification for the refinement comparison
of C5: `updateLiquid` with the extinguish scan reading the next buffer. -/
def updateLiquidSpecC5 (w : Nat) (cur : Nat → Material) (c : Choice) (i : Nat) (m : Material)
    (s : SimState) : SimState :=
  let density := (MATERIALS m).density
  let below := i + w
  if cur below = Material.EMPTY ∨
      ((MATERIALS (cur below)).density < density ∧ cur below ≠ Material.WALL) then
    { s with next := Function.update (Function.update s.next below m) i (cur below) }
  else
    let diag1 := if c.liqDir then i + w + 1 else i + w - 1
    let diag2 := if c.liqDir then i + w - 1 else i + w + 1
    if cur diag1 = Material.EMPTY ∨
        ((MATERIALS (cur diag1)).density < density ∧ cur diag1 ≠ Material.WALL) then
      { s with next := Function.update (Function.update s.next diag1 m) i (cur diag1) }
    else if cur diag2 = Material.EMPTY ∨
        ((MATERIALS (cur diag2)).density < density ∧ cur diag2 ≠ Material.WALL) then
      { s with next := Function.update (Function.update s.next diag2 m) i (cur diag2) }
    else
      let s1 :=
        if c.liqSpread then
          let side := if c.liqSpreadDir then i + 1 else i - 1
          if cur side = Material.EMPTY then
            { s with next := Function.update (Function.update s.next side m) i Material.EMPTY }
          else s
        else s
      if m = Material.WATER then { s1 with next := extinguishScanNextBuf w i s1.next } else s1

/-- The 10x10 extinguish-scenario buffer of the specification: Fire at (5,5)
(flat index 55), Water at (5,4) directly above (flat index 45), Wall border,
Empty elsewhere. -/
def fwCells : Nat → Material := fun i =>
  if i = 55 then Material.FIRE
  else if i = 45 then Material.WATER
  else if i < 100 ∧ isBorderIdx 10 10 i then Material.WALL
  else Material.EMPTY

/-- The extinguish-scenario grid. -/
def fwGrid : Grid := ⟨10, 10, fwCells, fun _ => 0⟩

/-- The 10x10 settling-scenario buffer: Sand at (5,5), Wall border, Empty
elsewhere. -/
def sandCells : Nat → Material := fun i =>
  if i = 55 then Material.SAND
  else if i < 100 ∧ isBorderIdx 10 10 i then Material.WALL
  else Material.EMPTY

/-- The settling-scenario grid. -/
def sandGrid : Grid := ⟨10, 10, sandCells, fun _ => 0⟩

/-- The settling grid with a stale age of 7 recorded at the empty destination
cell (5,6) (flat index 65); used to exhibit a material change that leaves a
nonzero age. -/
def sandAgeGrid : Grid := ⟨10, 10, sandCells, fun i => if i = 65 then 7 else 0⟩

/-- A 10x10 buffer with Salt at (5,4) (flat index 45) and Water directly below
at (5,5) (flat index 55). -/
def saltCells : Nat → Material := fun i =>
  if i = 45 then Material.SALT
  else if i = 55 then Material.WATER
  else if i < 100 ∧ isBorderIdx 10 10 i then Material.WALL
  else Material.EMPTY

/-- The salt-dissolution scenario grid. -/
def saltGrid : Grid := ⟨10, 10, saltCells, fun _ => 0⟩

/-- Current buffer for the C5 buffer-discipline comparison (width 5): Water at
index 12, Fire at index 11, Walls at 16, 17, 18 so that every gravity move of
the water is blocked and the extinguish scan runs. -/
def c5cur : Nat → Material := fun j =>
  if j = 12 then Material.WATER
  else if j = 11 then Material.FIRE
  else if j = 16 ∨ j = 17 ∨ j = 18 then Material.WALL
  else Material.EMPTY

/-- Tick state for the C5 comparison in which the fire at index 11 has already
been relocated in the next buffer (next holds Empty there). -/
def c5s : SimState := ⟨fun j => if j = 11 then Material.EMPTY else c5cur j, fun _ => 0⟩

/-- A 5x5 grid with an extra interior Wall at (2,2) (flat index 12), used for
the paint wall-protection counterexample. -/
def wallGrid : Grid :=
  ⟨5, 5, fun i => if i = 12 then Material.WALL
    else if i < 25 ∧ isBorderIdx 5 5 i then Material.WALL
    else Material.EMPTY, fun _ => 0⟩

/-- A plain 5x5 starting grid for paint witnesses. -/
def g5 : Grid := initGrid 5 5

/-- The border-wall invariant on a raw buffer. -/
def bufferBorderWall (w h : Nat) (n : Nat → Material) : Prop :=
  ∀ j, j < w * h → isBorderIdx w h j → n j = Material.WALL

instance (w h : Nat) (n : Nat → Material) : Decidable (bufferBorderWall w h n) := by
  unfold bufferBorderWall; infer_instance

/-- The border-wall invariant of the specification on a grid. -/
def borderWall (g : Grid) : Prop :=
  bufferBorderWall g.width g.height g.cells

instance (g : Grid) : Decidable (borderWall g) := by
  unfold borderWall; infer_instance

/-! ### Generic helper lemmas -/

theorem foldl_preserve {α β : Type _} {P : β → Prop} {f : β → α → β} {L : List α}
    (hf : ∀ b a, a ∈ L → P b → P (f b a)) {b : β} (hb : P b) : P (L.foldl f b) := by
  induction L generalizing b with
  | nil => exact hb
  | cons x t ih =>
    exact ih (fun b2 a ha hb2 => hf b2 a (List.mem_cons_of_mem x ha) hb2)
      (hf b x (List.mem_cons_self x t) hb)

/-- Coordinate bounds for an interior flat index: it lies at least one full
row into the buffer and its bottom-right diagonal neighbor is still in
range. -/
theorem interior_bounds {w h i : Nat} (hi : i < w * h)
    (hx0 : i % w ≠ 0) (hx1 : i % w ≠ w - 1) (hy0 : i / w ≠ 0) (hy1 : i / w ≠ h - 1) :
    w + 1 ≤ i ∧ i + w + 1 < w * h := by
  have hw : 0 < w := by
    rcases Nat.eq_zero_or_pos w with rfl | hw
    · simp at hi
    · exact hw
  have hxlt : i % w < w := Nat.mod_lt i hw
  have hylt : i / w < h := (Nat.div_lt_iff_lt_mul hw).mpr (Nat.mul_comm w h ▸ hi)
  obtain ⟨x, hx⟩ : ∃ x, x = i % w := ⟨_, rfl⟩
  obtain ⟨y, hy⟩ : ∃ y, y = i / w := ⟨_, rfl⟩
  rw [← hx] at hx0 hx1 hxlt
  rw [← hy] at hy0 hy1 hylt
  have key : x + w * y = i := by rw [hx, hy]; exact Nat.mod_add_div i w
  have hmul1 : w * 1 ≤ w * y :=
    Nat.mul_le_mul_left w (Nat.pos_of_ne_zero hy0)
  have hsplit : w * h = w * y + w * (h - y) := by
    rw [← Nat.mul_add]
    congr 1
    omega
  have hmul2 : w * 2 ≤ w * (h - y) :=
    Nat.mul_le_mul_left w (show 2 ≤ h - y by omega)
  omega

theorem neighborhood9_lt {w i j N : Nat} (hb : i + w + 1 < N)
    (hj : j ∈ neighborhood9 w i) : j < N := by
  simp only [neighborhood9, List.mem_cons, List.not_mem_nil, or_false] at hj
  rcases hj with rfl | rfl | rfl | rfl | rfl | rfl | rfl | rfl | rfl <;> omega

theorem neighborhood8_lt {w i j N : Nat} (hb : i + w + 1 < N)
    (hj : j ∈ neighborhood8 w i) : j < N := by
  simp only [neighborhood8, List.mem_cons, List.not_mem_nil, or_false] at hj
  rcases hj with rfl | rfl | rfl | rfl | rfl | rfl | rfl | rfl <;> omega

theorem plantGrowTarget_lt {w i d N : Nat} (hb : i + w + 1 < N) :
    plantGrowTarget w i d < N := by
  unfold plantGrowTarget
  match d with
  | 0 => simp only [List.getD_cons_zero]; omega
  | 1 => simp only [List.getD_cons_succ, List.getD_cons_zero]; omega
  | 2 => simp only [List.getD_cons_succ, List.getD_cons_zero]; omega
  | 3 => simp only [List.getD_cons_succ, List.getD_cons_zero]; omega
  | 4 => simp only [List.getD_cons_succ, List.getD_cons_zero]; omega
  | n + 5 => simp only [List.getD_cons_succ, List.getD_nil]; omega

/-- A gravity/displacement guard implies the target is not Wall. -/
theorem move_guard_ne_wall {t : Material} {d : Nat}
    (hg : t = Material.EMPTY ∨ ((MATERIALS t).density < d ∧ t ≠ Material.WALL)) :
    t ≠ Material.WALL := by
  rcases hg with rfl | ⟨_, hg⟩
  · intro hc; exact Material.noConfusion hc
  · exact hg

theorem flammable_ne_wall {t : Material} (hf : (MATERIALS t).flammable = true) :
    t ≠ Material.WALL := by
  cases t <;> simp_all [MATERIALS]

/-! ### Border-wall preservation through one tick -/

theorem nbw_update_of_interior {w h : Nat} {n : Nat → Material} {i : Nat} {v : Material}
    (hnb : ¬ isBorderIdx w h i) (hn : bufferBorderWall w h n) :
    bufferBorderWall w h (Function.update n i v) := by
  intro j hj hbj
  rcases eq_or_ne j i with rfl | hne
  · exact absurd hbj hnb
  · rw [Function.update_noteq hne]
    exact hn j hj hbj

theorem nbw_update_of_notwall {w h : Nat} {cur n : Nat → Material} {t : Nat} {v : Material}
    (hcur : bufferBorderWall w h cur) (ht : t < w * h) (htw : cur t ≠ Material.WALL)
    (hn : bufferBorderWall w h n) :
    bufferBorderWall w h (Function.update n t v) := by
  intro j hj hbj
  rcases eq_or_ne j t with rfl | hne
  · exact absurd (hcur j hj hbj) htw
  · rw [Function.update_noteq hne]
    exact hn j hj hbj

/-- The two-cell swap write of a movement rule preserves the border walls:
the destination is guarded as non-Wall and the source is interior. -/
theorem nbw_move {w h : Nat} {cur n : Nat → Material} {i t : Nat} {m v : Material}
    (hcur : bufferBorderWall w h cur) (hnb : ¬ isBorderIdx w h i) (ht : t < w * h)
    (htw : cur t ≠ Material.WALL) (hn : bufferBorderWall w h n) :
    bufferBorderWall w h (Function.update (Function.update n t m) i v) :=
  nbw_update_of_interior hnb (nbw_update_of_notwall hcur ht htw hn)

theorem eq_empty_ne_wall {t : Material} (he : t = Material.EMPTY) : t ≠ Material.WALL := by
  rw [he]
  intro hc
  exact Material.noConfusion hc

theorem extinguishScan_nbw {w h i : Nat} {cur n : Nat → Material}
    (hcur : bufferBorderWall w h cur) (hbd : i + w + 1 < w * h)
    (hn : bufferBorderWall w h n) :
    bufferBorderWall w h (extinguishScan cur w i n) := by
  unfold extinguishScan
  refine foldl_preserve (fun acc j hj hacc => ?_) hn
  by_cases hf : cur j = Material.FIRE
  · rw [if_pos hf]
    refine nbw_update_of_notwall hcur (neighborhood9_lt hbd hj) ?_ hacc
    rw [hf]
    intro hc
    exact Material.noConfusion hc
  · rw [if_neg hf]
    exact hacc

theorem updateSand_nbw {w h : Nat} {cur : Nat → Material} {c : Choice} {i : Nat} {m : Material}
    {s : SimState} (hcur : bufferBorderWall w h cur) (hnb : ¬ isBorderIdx w h i)
    (hbd : i + w + 1 < w * h) (hs : bufferBorderWall w h s.next) :
    bufferBorderWall w h (updateSand w cur c i m s).next := by
  simp only [updateSand]
  split_ifs <;>
    first
      | exact nbw_move hcur hnb (by omega) (move_guard_ne_wall ‹_›) hs
      | exact nbw_update_of_interior hnb
          (nbw_move hcur hnb (by omega) (move_guard_ne_wall ‹_›) hs)
      | exact nbw_update_of_interior hnb hs
      | exact hs

theorem updateLiquid_nbw {w h : Nat} {cur : Nat → Material} {c : Choice} {i : Nat} {m : Material}
    {s : SimState} (hcur : bufferBorderWall w h cur) (hnb : ¬ isBorderIdx w h i)
    (hbd : i + w + 1 < w * h) (hs : bufferBorderWall w h s.next) :
    bufferBorderWall w h (updateLiquid w cur c i m s).next := by
  simp only [updateLiquid]
  split_ifs <;>
    first
      | exact nbw_move hcur hnb (by omega) (move_guard_ne_wall ‹_›) hs
      | exact extinguishScan_nbw hcur hbd
          (nbw_move hcur hnb (by omega) (eq_empty_ne_wall ‹_›) hs)
      | exact extinguishScan_nbw hcur hbd hs
      | exact nbw_move hcur hnb (by omega) (eq_empty_ne_wall ‹_›) hs
      | exact hs

theorem updateFire_nbw {w h : Nat} {cur : Nat → Material} {c : Choice} {i : Nat} {s : SimState}
    (hcur : bufferBorderWall w h cur) (hnb : ¬ isBorderIdx w h i)
    (hbd : i + w + 1 < w * h) (hs : bufferBorderWall w h s.next) :
    bufferBorderWall w h (updateFire w cur c i s).next := by
  simp only [updateFire]
  by_cases h1 : cur (i - w) = Material.EMPTY ∧ c.fireRise = true
  · rw [if_pos h1]
    exact nbw_move hcur hnb (by omega) (eq_empty_ne_wall h1.1) hs
  · rw [if_neg h1]
    have hs1 : bufferBorderWall w h
        (((neighborhood8 w i).foldl (fun acc j =>
          if (MATERIALS (cur j)).flammable = true ∧ c.ignite j then
            { next := Function.update acc.next j Material.FIRE,
              age := Function.update acc.age j 0 }
          else acc) s).next) := by
      refine foldl_preserve (P := fun t : SimState => bufferBorderWall w h t.next)
        (fun acc j hj hacc => ?_) hs
      by_cases hcond : (MATERIALS (cur j)).flammable = true ∧ c.ignite j
      · rw [if_pos hcond]
        exact nbw_update_of_notwall hcur (neighborhood8_lt hbd hj) (flammable_ne_wall hcond.1) hacc
      · rw [if_neg hcond]
        exact hacc
    split_ifs with h2 h3
    · exact nbw_update_of_notwall hcur (by omega) (eq_empty_ne_wall h3) hs1
    · exact hs1
    · exact hs1

theorem updateSmoke_nbw {w h : Nat} {cur : Nat → Material} {c : Choice} {i : Nat} {s : SimState}
    (hcur : bufferBorderWall w h cur) (hnb : ¬ isBorderIdx w h i)
    (hbd : i + w + 1 < w * h) (hs : bufferBorderWall w h s.next) :
    bufferBorderWall w h (updateSmoke w cur c i s).next := by
  simp only [updateSmoke]
  split_ifs <;>
    first
      | exact nbw_move hcur hnb (by omega) (eq_empty_ne_wall (And.left ‹_›)) hs
      | exact nbw_move hcur hnb (by omega) (eq_empty_ne_wall ‹_›) hs
      | exact hs

theorem updatePlant_nbw {w h : Nat} {cur : Nat → Material} {c : Choice} {i : Nat} {s : SimState}
    (hcur : bufferBorderWall w h cur) (hnb : ¬ isBorderIdx w h i)
    (hbd : i + w + 1 < w * h) (hs : bufferBorderWall w h s.next) :
    bufferBorderWall w h (updatePlant w h cur c i s).next := by
  simp only [updatePlant]
  split_ifs <;>
    first
      | exact nbw_update_of_interior hnb
          (nbw_update_of_notwall hcur (plantGrowTarget_lt hbd) (eq_empty_ne_wall (And.left ‹_›)) hs)
      | exact nbw_update_of_notwall hcur (plantGrowTarget_lt hbd) (eq_empty_ne_wall (And.left ‹_›)) hs
      | exact nbw_update_of_interior hnb hs
      | exact hs

theorem applyRule_nbw {w h : Nat} {cur : Nat → Material} {c : Choice} {i : Nat} {m : Material}
    {s : SimState} (hcur : bufferBorderWall w h cur) (hnb : ¬ isBorderIdx w h i)
    (hbd : i + w + 1 < w * h) (hs : bufferBorderWall w h s.next) :
    bufferBorderWall w h (applyRule w h cur c i m s).next := by
  cases m <;> simp only [applyRule] <;>
    first
      | exact updateSand_nbw hcur hnb hbd hs
      | exact updateLiquid_nbw hcur hnb hbd hs
      | exact updateFire_nbw hcur hnb hbd hs
      | exact updateSmoke_nbw hcur hnb hbd hs
      | exact updatePlant_nbw hcur hnb hbd hs
      | exact hs

theorem processIndex_nbw {w h : Nat} {cur : Nat → Material} {c : Choice} {i : Nat} {s : SimState}
    (hcur : bufferBorderWall w h cur) (hi : i < w * h)
    (hs : bufferBorderWall w h s.next) :
    bufferBorderWall w h (processIndex w h cur c i s).next := by
  by_cases hb : isBorderIdx w h i
  · simp only [processIndex]
    rw [if_pos hb]
    exact hs
  · have hb4 := hb
    unfold isBorderIdx at hb4
    push_neg at hb4
    obtain ⟨hx0, hx1, hy0, hy1⟩ := hb4
    have hbd := (interior_bounds hi hx0 hx1 hy0 hy1).2
    simp only [processIndex]
    rw [if_neg hb]
    by_cases he : cur i = Material.EMPTY
    · rw [if_pos he]
      exact hs
    · rw [if_neg he]
      by_cases hl : 0 < (MATERIALS (cur i)).lifespan
      · rw [if_pos hl]
        by_cases hexp : (MATERIALS (cur i)).lifespan ≤ Function.update s.age i (s.age i + 1) i
        · rw [if_pos hexp]
          by_cases hf : cur i = Material.FIRE
          · rw [if_pos hf]
            exact nbw_update_of_interior hb hs
          · rw [if_neg hf]
            by_cases hsm : cur i = Material.SMOKE
            · rw [if_pos hsm]
              exact nbw_update_of_interior hb hs
            · rw [if_neg hsm]
              exact hs
        · rw [if_neg hexp]
          exact applyRule_nbw hcur hb hbd hs
      · rw [if_neg hl]
        exact applyRule_nbw hcur hb hbd hs

/-- One tick preserves the border-wall invariant, for any traversal order
whose entries are in range and any draw assignment. -/
theorem updateSimulation_borderWall {g : Grid} {order : List Nat} {ch : Nat → Choice}
    (hb : borderWall g) (ho : ∀ i ∈ order, i < g.width * g.height) :
    borderWall (updateSimulation g order ch) := by
  unfold borderWall at hb ⊢
  unfold updateSimulation tickFold
  exact foldl_preserve (P := fun t : SimState => bufferBorderWall g.width g.height t.next)
    (fun acc i hi hacc => processIndex_nbw hb (ho i hi) hacc) hb

theorem updateSimulation_width (g : Grid) (order : List Nat) (ch : Nat → Choice) :
    (updateSimulation g order ch).width = g.width := rfl

theorem updateSimulation_height (g : Grid) (order : List Nat) (ch : Nat → Choice) :
    (updateSimulation g order ch).height = g.height := rfl

theorem initGrid_borderWall (w h : Nat) : borderWall (initGrid w h) := by
  intro j hj hbj
  simp only [initGrid]
  rw [if_pos ⟨hj, hbj⟩]

theorem handleResize_borderWall (g : Grid) (w h : Nat) : borderWall (handleResize g w h) := by
  intro j hj hbj
  simp only [handleResize]
  rw [if_pos ⟨hj, hbj⟩]

theorem runSteps_borderWall {g : Grid} {L : List (List Nat × (Nat → Choice))}
    (hb : borderWall g) (ho : ∀ oc ∈ L, ∀ i ∈ oc.1, i < g.width * g.height) :
    borderWall (runSteps g L) := by
  unfold runSteps
  induction L generalizing g with
  | nil => exact hb
  | cons oc t ih =>
    simp only [List.foldl_cons]
    exact ih (updateSimulation_borderWall hb (ho oc (List.mem_cons_self oc t)))
      (fun oc2 h2 i hi => ho oc2 (List.mem_cons_of_mem oc h2) i hi)

/-! ### Processing lemmas for the extinguish scenario (C1) -/

theorem tickFold_cons (w h : Nat) (cur : Nat → Material) (ch : Nat → Choice) (a : Nat)
    (t : List Nat) (s : SimState) :
    tickFold w h cur ch (a :: t) s = tickFold w h cur ch t (processIndex w h cur (ch a) a s) := rfl

/-- Processing the water cell of the extinguish scenario: the water sinks into
the fire below (density 5 < 20) and the rule returns before the extinguish
scan; the two cells of the next buffer are swapped, regardless of the
draws. -/
theorem procFW_45 (c : Choice) (s : SimState) :
    processIndex 10 10 fwCells c 45 s =
      { s with next := Function.update (Function.update s.next 55 Material.WATER) 45 Material.FIRE } := rfl

/-- Processing the fire cell of the extinguish scenario: the cell above holds
Water, no neighbor is flammable and no smoke can spawn, so only the age entry
changes, regardless of the draws. -/
theorem procFW_55 (c : Choice) (s : SimState) (hage : s.age 55 + 1 < 40) :
    processIndex 10 10 fwCells c 55 s =
      { s with age := Function.update s.age 55 (s.age 55 + 1) } := by
  have hno : ¬ ((40 : Nat) ≤ s.age 55 + 1) := by omega
  simp [processIndex, applyRule, updateFire, fwCells, MATERIALS, isBorderIdx, neighborhood8, hno]

/-- Every other index of the extinguish scenario is border or Empty and is
skipped. -/
theorem procFW_other (c : Choice) (s : SimState) (i : Nat)
    (h45 : i ≠ 45) (h55 : i ≠ 55) :
    processIndex 10 10 fwCells c i s = s := by
  by_cases hb : isBorderIdx 10 10 i
  · simp only [processIndex]
    rw [if_pos hb]
  · have he : fwCells i = Material.EMPTY := by
      simp only [fwCells]
      rw [if_neg h55, if_neg h45, if_neg (fun hc => hb hc.2)]
    simp only [processIndex]
    rw [if_neg hb, if_pos he]

theorem fwFold_no45 (ch : Nat → Choice) :
    ∀ (L : List Nat) (s : SimState), 45 ∉ L →
      L.count 55 + s.age 55 < 40 →
      (tickFold 10 10 fwCells ch L s).next 55 = s.next 55 ∧
      (tickFold 10 10 fwCells ch L s).next 45 = s.next 45 := by
  intro L
  induction L with
  | nil => intro s _ _; exact ⟨rfl, rfl⟩
  | cons a t ih =>
    intro s h45 hcount
    have h45t : 45 ∉ t := fun hc => h45 (List.mem_cons_of_mem a hc)
    have h45a : a ≠ 45 := fun hc => h45 (hc ▸ List.mem_cons_self a t)
    rw [tickFold_cons]
    by_cases h55a : a = 55
    · subst h55a
      have hcnt : (55 :: t).count 55 = t.count 55 + 1 := List.count_cons_self 55 t
      rw [procFW_55 (ch 55) s (by omega)]
      exact ih _ h45t (show t.count 55 + (s.age 55 + 1) < 40 by omega)
    · rw [procFW_other (ch a) s a h45a h55a]
      have hcnt : (a :: t).count 55 = t.count 55 := List.count_cons_of_ne (Ne.symm h55a) t
      exact ih s h45t (by omega)

theorem fwFold_with45 (ch : Nat → Choice) :
    ∀ (L : List Nat) (s : SimState), 45 ∈ L →
      L.count 55 + s.age 55 < 40 →
      (tickFold 10 10 fwCells ch L s).next 55 = Material.WATER ∧
      (tickFold 10 10 fwCells ch L s).next 45 = Material.FIRE := by
  intro L
  induction L with
  | nil => intro s h45 _; exact absurd h45 (List.not_mem_nil 45)
  | cons a t ih =>
    intro s h45 hcount
    rw [tickFold_cons]
    by_cases h45t : 45 ∈ t
    · by_cases h55a : a = 55
      · subst h55a
        have hcnt : (55 :: t).count 55 = t.count 55 + 1 := List.count_cons_self 55 t
        rw [procFW_55 (ch 55) s (by omega)]
        exact ih _ h45t (show t.count 55 + (s.age 55 + 1) < 40 by omega)
      · by_cases h45a : a = 45
        · subst h45a
          rw [procFW_45]
          have hcnt : (45 :: t).count 55 = t.count 55 := List.count_cons_of_ne (by omega) t
          exact ih _ h45t (show t.count 55 + s.age 55 < 40 by omega)
        · rw [procFW_other (ch a) s a h45a h55a]
          have hcnt : (a :: t).count 55 = t.count 55 := List.count_cons_of_ne (Ne.symm h55a) t
          exact ih s h45t (by omega)
    · have h45a : a = 45 := by
        rcases List.mem_cons.mp h45 with hc | hc
        · exact hc.symm
        · exact absurd hc h45t
      subst h45a
      rw [procFW_45]
      have hcnt : (45 :: t).count 55 = t.count 55 := List.count_cons_of_ne (by omega) t
      have hrest := fwFold_no45 ch t
        { s with next := Function.update (Function.update s.next 55 Material.WATER) 45 Material.FIRE }
        h45t (show t.count 55 + s.age 55 < 40 by omega)
      dsimp only at hrest
      refine ⟨?_, ?_⟩
      · rw [hrest.1, Function.update_noteq (by omega), Function.update_same]
      · rw [hrest.2, Function.update_same]

/-! ### Processing lemmas for the settling scenario (C8) -/

/-- Processing the sand cell of the settling scenario: the cell below is
Empty, so the sand moves straight down, regardless of the draws. -/
theorem procSand_55 (c : Choice) (s : SimState) :
    processIndex 10 10 sandCells c 55 s =
      { s with next := Function.update (Function.update s.next 65 Material.SAND) 55 Material.EMPTY } := rfl

theorem procSand_other (c : Choice) (s : SimState) (i : Nat) (h55 : i ≠ 55) :
    processIndex 10 10 sandCells c i s = s := by
  by_cases hb : isBorderIdx 10 10 i
  · simp only [processIndex]
    rw [if_pos hb]
  · have he : sandCells i = Material.EMPTY := by
      simp only [sandCells]
      rw [if_neg h55, if_neg (fun hc => hb hc.2)]
    simp only [processIndex]
    rw [if_neg hb, if_pos he]

theorem sandFold_no (ch : Nat → Choice) :
    ∀ (L : List Nat) (s : SimState), 55 ∉ L →
      (tickFold 10 10 sandCells ch L s).next 65 = s.next 65 ∧
      (tickFold 10 10 sandCells ch L s).next 55 = s.next 55 := by
  intro L
  induction L with
  | nil => intro s _; exact ⟨rfl, rfl⟩
  | cons a t ih =>
    intro s h55
    have h55t : 55 ∉ t := fun hc => h55 (List.mem_cons_of_mem a hc)
    have h55a : a ≠ 55 := fun hc => h55 (hc ▸ List.mem_cons_self a t)
    rw [tickFold_cons, procSand_other (ch a) s a h55a]
    exact ih s h55t

theorem sandFold_with (ch : Nat → Choice) :
    ∀ (L : List Nat) (s : SimState), 55 ∈ L →
      (tickFold 10 10 sandCells ch L s).next 65 = Material.SAND ∧
      (tickFold 10 10 sandCells ch L s).next 55 = Material.EMPTY := by
  intro L
  induction L with
  | nil => intro s h55; exact absurd h55 (List.not_mem_nil 55)
  | cons a t ih =>
    intro s h55
    rw [tickFold_cons]
    by_cases h55t : 55 ∈ t
    · exact ih _ h55t
    · have h55a : a = 55 := by
        rcases List.mem_cons.mp h55 with hc | hc
        · exact hc.symm
        · exact absurd hc h55t
      subst h55a
      rw [procSand_55]
      have hrest := sandFold_no ch t
        { s with next := Function.update (Function.update s.next 65 Material.SAND) 55 Material.EMPTY }
        h55t
      dsimp only at hrest
      refine ⟨?_, ?_⟩
      · rw [hrest.1, Function.update_noteq (by omega), Function.update_same]
      · rw [hrest.2, Function.update_same]

/-! ### Salt over water (C4) -/

/-- Processing a Salt cell whose below neighbor holds Water: the density
comparison (Water 20 < Salt 25) makes the down move fire and return, so the
processed cell receives Water in the next buffer, whatever the prior state of
that buffer and whatever the draws. -/
theorem processIndex_salt_water {w h : Nat} {cur : Nat → Material} (c : Choice) {i : Nat}
    (hnb : ¬ isBorderIdx w h i) (hsalt : cur i = Material.SALT)
    (hwat : cur (i + w) = Material.WATER) (s : SimState) :
    (processIndex w h cur c i s).next i = Material.WATER := by
  simp only [processIndex]
  rw [if_neg hnb]
  rw [if_neg (show ¬ cur i = Material.EMPTY from by
    rw [hsalt]; intro hc; exact Material.noConfusion hc)]
  rw [if_neg (show ¬ 0 < (MATERIALS (cur i)).lifespan from by rw [hsalt]; decide)]
  rw [hsalt]
  simp only [applyRule, updateSand]
  rw [if_pos (show cur (i + w) = Material.EMPTY ∨
      ((MATERIALS (cur (i + w))).density < (MATERIALS Material.SALT).density ∧
        cur (i + w) ≠ Material.WALL) from Or.inr (by rw [hwat]; exact ⟨by decide, by decide⟩))]
  dsimp only
  rw [Function.update_same]
  exact hwat

/-- A tick whose traversal order ends at a Salt-over-Water cell leaves Water
at that cell. -/
theorem updateSimulation_salt_last {g : Grid} {i : Nat} (ch : Nat → Choice)
    (hnb : ¬ isBorderIdx g.width g.height i) (hsalt : g.cells i = Material.SALT)
    (hwat : g.cells (i + g.width) = Material.WATER) (L : List Nat) :
    (updateSimulation g (L ++ [i]) ch).cells i = Material.WATER := by
  show (tickFold g.width g.height g.cells ch (L ++ [i]) { next := g.cells, age := g.age }).next i
      = Material.WATER
  have hsplit : tickFold g.width g.height g.cells ch (L ++ [i]) { next := g.cells, age := g.age } =
      processIndex g.width g.height g.cells (ch i) i
        (tickFold g.width g.height g.cells ch L { next := g.cells, age := g.age }) := by
    unfold tickFold
    rw [List.foldl_append]
    rfl
  rw [hsplit]
  exact processIndex_salt_water (ch i) hnb hsalt hwat _

/-! ### Extinguish-scan characterization (C5) -/

theorem extFold_notmem {cur : Nat → Material} :
    ∀ (L : List Nat) (n : Nat → Material) (j : Nat), j ∉ L →
      L.foldl (fun acc k => if cur k = Material.FIRE then Function.update acc k Material.SMOKE else acc) n j
        = n j := by
  intro L
  induction L with
  | nil => intro n j _; rfl
  | cons a t ih =>
    intro n j hj
    have hjt : j ∉ t := fun hc => hj (List.mem_cons_of_mem a hc)
    have hja : j ≠ a := fun hc => hj (hc ▸ List.mem_cons_self a t)
    simp only [List.foldl_cons]
    rw [ih _ j hjt]
    by_cases hf : cur a = Material.FIRE
    · rw [if_pos hf, Function.update_noteq hja]
    · rw [if_neg hf]

theorem extFold_mem {cur : Nat → Material} :
    ∀ (L : List Nat) (n : Nat → Material) (j : Nat), j ∈ L → cur j = Material.FIRE →
      L.foldl (fun acc k => if cur k = Material.FIRE then Function.update acc k Material.SMOKE else acc) n j
        = Material.SMOKE := by
  intro L
  induction L with
  | nil => intro n j hj _; exact absurd hj (List.not_mem_nil j)
  | cons a t ih =>
    intro n j hj hf
    simp only [List.foldl_cons]
    by_cases hjt : j ∈ t
    · exact ih _ j hjt hf
    · have hja : j = a := by
        rcases List.mem_cons.mp hj with hc | hc
        · exact hc
        · exact absurd hc hjt
      subst hja
      rw [if_pos hf, extFold_notmem t _ j hjt, Function.update_same]

/-- The extinguish scan converts to Smoke exactly at positions holding Fire in
the buffer it reads; this lemma gives the positive direction for any position
of the scanned neighborhood. -/
theorem extinguishScan_fire {cur : Nat → Material} {w i j : Nat} (n : Nat → Material)
    (hj : j ∈ neighborhood9 w i) (hf : cur j = Material.FIRE) :
    extinguishScan cur w i n j = Material.SMOKE :=
  extFold_mem (neighborhood9 w i) n j hj hf

/-! ### Paint machinery (C3, C6, C9) -/

/-- A single brush-cell application either leaves the state unchanged or
performs a guarded write at a decoded interior index, pairing the cell write
with an age reset. -/
theorem paintCell_cases (w h : Nat) (mat : Material) (er : Bool) (s : SimState) (p b : Int × Int) :
    paintCell w h mat er s p b = s ∨
    ∃ idx, idx = (p.1 + b.1 + (p.2 + b.2) * (w : Int)).toNat ∧
      0 < p.1 + b.1 ∧ p.1 + b.1 < (w : Int) - 1 ∧ 0 < p.2 + b.2 ∧ p.2 + b.2 < (h : Int) - 1 ∧
      (s.next idx ≠ Material.WALL ∨ mat = Material.WALL ∨ er = true) ∧
      paintCell w h mat er s p b =
        { next := Function.update s.next idx (if er then Material.EMPTY else mat),
          age := Function.update s.age idx 0 } := by
  simp only [paintCell]
  by_cases h1 : 0 < p.1 + b.1 ∧ p.1 + b.1 < (w : Int) - 1 ∧ 0 < p.2 + b.2 ∧ p.2 + b.2 < (h : Int) - 1
  · rw [if_pos h1]
    by_cases h2 : s.next ((p.1 + b.1 + (p.2 + b.2) * (w : Int)).toNat) ≠ Material.WALL ∨
        mat = Material.WALL ∨ er = true
    · rw [if_pos h2]
      exact Or.inr ⟨_, rfl, h1.1, h1.2.1, h1.2.2.1, h1.2.2.2, h2, rfl⟩
    · rw [if_neg h2]
      exact Or.inl rfl
  · rw [if_neg h1]
    exact Or.inl rfl

theorem paintFold_age_zero (w h : Nat) (mat : Material) (er : Bool)
    (pts offs : List (Int × Int)) (base : Nat → Material) :
    ∀ (s : SimState), (∀ k, s.next k ≠ base k → s.age k = 0) →
      ∀ k, (pts.foldl (fun acc p => offs.foldl
          (fun acc2 b => paintCell w h mat er acc2 p b) acc) s).next k ≠ base k →
        (pts.foldl (fun acc p => offs.foldl
          (fun acc2 b => paintCell w h mat er acc2 p b) acc) s).age k = 0 := by
  intro s hs
  refine foldl_preserve (P := fun t : SimState => ∀ k, t.next k ≠ base k → t.age k = 0) ?_ hs
  intro acc p _ hacc
  refine foldl_preserve (P := fun t : SimState => ∀ k, t.next k ≠ base k → t.age k = 0) ?_ hacc
  intro acc2 b _ hacc2 k hk
  rcases paintCell_cases w h mat er acc2 p b with heq | ⟨idx, _, _, _, _, _, _, heq⟩
  · rw [heq] at hk ⊢
    exact hacc2 k hk
  · rw [heq] at hk ⊢
    dsimp only at hk ⊢
    rcases eq_or_ne k idx with rfl | hne
    · rw [Function.update_same]
    · rw [Function.update_noteq hne] at hk ⊢
      exact hacc2 k hk

theorem brushOffsets_circle {r : Nat} {b : Int × Int} (hb : b ∈ brushOffsets r) :
    b.1 * b.1 + b.2 * b.2 ≤ (r : Int) * (r : Int) :=
  of_decide_eq_true (List.mem_filter.mp hb).2

theorem paintFold_containment (w h : Nat) (mat : Material) (er : Bool) (r : Nat)
    (pts : List (Int × Int)) (s0 : SimState) :
    ∀ k, ((pts.foldl (fun acc p => (brushOffsets r).foldl
          (fun acc2 b => paintCell w h mat er acc2 p b) acc) s0).next k ≠ s0.next k ∨
        (pts.foldl (fun acc p => (brushOffsets r).foldl
          (fun acc2 b => paintCell w h mat er acc2 p b) acc) s0).age k ≠ s0.age k) →
      ∃ p ∈ pts, ∃ q : Int × Int,
        (q.1 - p.1) * (q.1 - p.1) + (q.2 - p.2) * (q.2 - p.2) ≤ (r : Int) * (r : Int) ∧
        0 < q.1 ∧ q.1 < (w : Int) - 1 ∧ 0 < q.2 ∧ q.2 < (h : Int) - 1 ∧
        k = (q.1 + q.2 * (w : Int)).toNat := by
  refine foldl_preserve (P := fun t : SimState =>
    ∀ k, (t.next k ≠ s0.next k ∨ t.age k ≠ s0.age k) → ∃ p ∈ pts, ∃ q : Int × Int,
      (q.1 - p.1) * (q.1 - p.1) + (q.2 - p.2) * (q.2 - p.2) ≤ (r : Int) * (r : Int) ∧
      0 < q.1 ∧ q.1 < (w : Int) - 1 ∧ 0 < q.2 ∧ q.2 < (h : Int) - 1 ∧
      k = (q.1 + q.2 * (w : Int)).toNat) ?_ ?_
  · intro acc p hp hacc
    refine foldl_preserve (P := fun t : SimState =>
      ∀ k, (t.next k ≠ s0.next k ∨ t.age k ≠ s0.age k) → ∃ p ∈ pts, ∃ q : Int × Int,
        (q.1 - p.1) * (q.1 - p.1) + (q.2 - p.2) * (q.2 - p.2) ≤ (r : Int) * (r : Int) ∧
        0 < q.1 ∧ q.1 < (w : Int) - 1 ∧ 0 < q.2 ∧ q.2 < (h : Int) - 1 ∧
        k = (q.1 + q.2 * (w : Int)).toNat) ?_ hacc
    intro acc2 b hb hacc2 k hk
    rcases paintCell_cases w h mat er acc2 p b with heq | ⟨idx, hidx, hx0, hx1, hy0, hy1, _, heq⟩
    · rw [heq] at hk
      exact hacc2 k hk
    · rw [heq] at hk
      dsimp only at hk
      rcases eq_or_ne k idx with rfl | hne
      · refine ⟨p, hp, (p.1 + b.1, p.2 + b.2), ?_, hx0, hx1, hy0, hy1, hidx⟩
        have e1 : p.1 + b.1 - p.1 = b.1 := by ring
        have e2 : p.2 + b.2 - p.2 = b.2 := by ring
        rw [e1, e2]
        exact brushOffsets_circle hb
      · rw [Function.update_noteq hne, Function.update_noteq hne] at hk
        exact hacc2 k hk
  · intro k hk
    rcases hk with hk | hk <;> exact absurd rfl hk

theorem paintFold_wall (w h : Nat) (mat : Material) (er : Bool)
    (pts offs : List (Int × Int)) (hmat : mat ≠ Material.WALL) (her : er = false)
    (s0 : SimState) :
    ∀ k, s0.next k = Material.WALL →
      (pts.foldl (fun acc p => offs.foldl
        (fun acc2 b => paintCell w h mat er acc2 p b) acc) s0).next k = s0.next k := by
  have main : ∀ t : SimState, (∀ k, s0.next k = Material.WALL → t.next k = s0.next k) →
      ∀ k, s0.next k = Material.WALL →
        (pts.foldl (fun acc p => offs.foldl
          (fun acc2 b => paintCell w h mat er acc2 p b) acc) t).next k = s0.next k := by
    intro t ht
    refine foldl_preserve (P := fun u : SimState =>
      ∀ k, s0.next k = Material.WALL → u.next k = s0.next k) ?_ ht
    intro acc p _ hacc
    refine foldl_preserve (P := fun u : SimState =>
      ∀ k, s0.next k = Material.WALL → u.next k = s0.next k) ?_ hacc
    intro acc2 b _ hacc2 k hk
    rcases paintCell_cases w h mat er acc2 p b with heq | ⟨idx, _, _, _, _, _, hguard, heq⟩
    · rw [heq]
      exact hacc2 k hk
    · rw [heq]
      dsimp only
      rcases eq_or_ne k idx with rfl | hne
      · rcases hguard with hg | hg | hg
        · exact absurd (hacc2 k hk ▸ hk) hg
        · exact absurd hg hmat
        · rw [her] at hg
          exact Bool.noConfusion hg
      · rw [Function.update_noteq hne]
        exact hacc2 k hk
  exact main s0 (fun k _ => rfl)

/-- Decoding a brush write target: the flat index built from interior integer
coordinates has interior row and column. -/
theorem paint_idx_decode {w h : Nat} {X Y : Int} (hx0 : 0 < X) (hx1 : X < (w : Int) - 1)
    (hy0 : 0 < Y) (hy1 : Y < (h : Int) - 1) :
    1 ≤ (X + Y * (w : Int)).toNat % w ∧ (X + Y * (w : Int)).toNat % w < w - 1 ∧
    1 ≤ (X + Y * (w : Int)).toNat / w ∧ (X + Y * (w : Int)).toNat / w < h - 1 := by
  obtain ⟨a, rfl⟩ : ∃ a : Nat, X = (a : Int) := ⟨X.toNat, (Int.toNat_of_nonneg (by omega)).symm⟩
  obtain ⟨e, rfl⟩ : ∃ e : Nat, Y = (e : Int) := ⟨Y.toNat, (Int.toNat_of_nonneg (by omega)).symm⟩
  have hw : 0 < w := by omega
  have ha1 : 1 ≤ a := by omega
  have ha2 : a < w - 1 := by omega
  have he1 : 1 ≤ e := by omega
  have he2 : e < h - 1 := by omega
  have hidx : ((a : Int) + (e : Int) * (w : Int)).toNat = a + e * w := by
    rw [← Int.natCast_mul, ← Int.natCast_add, Int.toNat_natCast]
  rw [hidx]
  have hmod : (a + e * w) % w = a := by
    rw [Nat.add_mul_mod_self_right]
    exact Nat.mod_eq_of_lt (by omega)
  have hdivv : (a + e * w) / w = e := by
    rw [Nat.add_mul_div_right _ _ hw, Nat.div_eq_of_lt (by omega)]
    omega
  rw [hmod, hdivv]
  exact ⟨ha1, ha2, he1, he2⟩

theorem paintFold_interior (w h : Nat) (mat : Material) (er : Bool)
    (pts offs : List (Int × Int)) (s0 : SimState) :
    ∀ k, ((pts.foldl (fun acc p => offs.foldl
          (fun acc2 b => paintCell w h mat er acc2 p b) acc) s0).next k ≠ s0.next k ∨
        (pts.foldl (fun acc p => offs.foldl
          (fun acc2 b => paintCell w h mat er acc2 p b) acc) s0).age k ≠ s0.age k) →
      1 ≤ k % w ∧ k % w < w - 1 ∧ 1 ≤ k / w ∧ k / w < h - 1 := by
  refine foldl_preserve (P := fun t : SimState =>
    ∀ k, (t.next k ≠ s0.next k ∨ t.age k ≠ s0.age k) →
      1 ≤ k % w ∧ k % w < w - 1 ∧ 1 ≤ k / w ∧ k / w < h - 1) ?_ ?_
  · intro acc p _ hacc
    refine foldl_preserve (P := fun t : SimState =>
      ∀ k, (t.next k ≠ s0.next k ∨ t.age k ≠ s0.age k) →
        1 ≤ k % w ∧ k % w < w - 1 ∧ 1 ≤ k / w ∧ k / w < h - 1) ?_ hacc
    intro acc2 b _ hacc2 k hk
    rcases paintCell_cases w h mat er acc2 p b with heq | ⟨idx, hidx, hx0, hx1, hy0, hy1, _, heq⟩
    · rw [heq] at hk
      exact hacc2 k hk
    · rw [heq] at hk
      dsimp only at hk
      rcases eq_or_ne k idx with rfl | hne
      · rw [hidx]
        exact paint_idx_decode hx0 hx1 hy0 hy1
      · rw [Function.update_noteq hne, Function.update_noteq hne] at hk
        exact hacc2 k hk
  · intro k hk
    rcases hk with hk | hk <;> exact absurd rfl hk

/-! ### The claims -/

/-- C1 counterexample: in the extinguish scenario (Fire at (5,5), Water at
(5,4) directly above, all else Empty inside the wall border), one concrete
tick (identity traversal order, all draws false) leaves Water, not Smoke, at
(5,5): the claim that (5,5) holds Smoke after one step for every outcome of
the draws is false. -/
theorem C1_counterexample_water_not_smoke :
    (updateSimulation fwGrid (List.range 100) (fun _ => ch0)).cells 55 = Material.WATER ∧
    Material.WATER ≠ Material.SMOKE :=
  ⟨by decide, by decide⟩

/-- C1 (amended): in the extinguish scenario, after exactly one step() and for
every outcome of the random draws (every traversal permutation and every draw
assignment), cell (5,5) holds Water and cell (5,4) holds Fire: the water
sinks into the fire by the density rule, whose early return prevents the
extinguish scan from running, so the fire is displaced upward rather than
extinguished. -/
theorem C1_extinguish_scenario_swaps (order : List Nat) (ch : Nat → Choice)
    (hp : order.Perm (List.range 100)) :
    (updateSimulation fwGrid order ch).cells 55 = Material.WATER ∧
    (updateSimulation fwGrid order ch).cells 45 = Material.FIRE := by
  have h45 : 45 ∈ order := hp.mem_iff.mpr (List.mem_range.mpr (by omega))
  have hcnt : order.count 55 = 1 := by
    rw [hp.count_eq]
    decide
  have hres := fwFold_with45 ch order { next := fwCells, age := fun _ => 0 } h45
    (show order.count 55 + 0 < 40 by omega)
  exact hres

/-- C1 witness: the amended theorem instantiated at the identity permutation
and the all-false draws. -/
theorem C1_extinguish_scenario_swaps_witness :
    (updateSimulation fwGrid (List.range 100) (fun _ => ch0)).cells 55 = Material.WATER ∧
    (updateSimulation fwGrid (List.range 100) (fun _ => ch0)).cells 45 = Material.FIRE :=
  C1_extinguish_scenario_swaps (List.range 100) (fun _ => ch0) (List.Perm.refl _)

/-- C2: the border invariant.  Every border cell holds Wall immediately after
initialization, after any resize, and after any number of step() calls (any
traversal orders with in-range indices, any draw assignments) from a grid
satisfying the invariant. -/
theorem C2_border_invariant :
    (∀ w h, borderWall (initGrid w h)) ∧
    (∀ g w h, borderWall (handleResize g w h)) ∧
    (∀ g L, borderWall g → (∀ oc ∈ L, ∀ i ∈ oc.1, i < g.width * g.height) →
      borderWall (runSteps g L)) :=
  ⟨initGrid_borderWall, handleResize_borderWall, fun _ _ hb ho => runSteps_borderWall hb ho⟩

/-- C2 witness: the three parts instantiated at concrete grids, a concrete
resize, and one concrete tick. -/
theorem C2_border_invariant_witness :
    borderWall (initGrid 6 4) ∧ borderWall (handleResize (initGrid 6 4) 3 7) ∧
    borderWall (runSteps (initGrid 5 5) [(List.range 25, fun _ => ch0)]) :=
  ⟨C2_border_invariant.1 6 4, C2_border_invariant.2.1 (initGrid 6 4) 3 7,
   C2_border_invariant.2.2 (initGrid 5 5) [(List.range 25, fun _ => ch0)] (by decide) (by decide)⟩

/-- C3 counterexample: a movement rule inside step() changes the material of a
cell without resetting its age.  In the settling scenario with a stale age of
7 recorded at the empty cell (5,6), one tick moves the sand into (5,6) — a
material change — yet the age of (5,6) remains 7. -/
theorem C3_counterexample_stale_age :
    sandAgeGrid.cells 65 = Material.EMPTY ∧
    (updateSimulation sandAgeGrid (List.range 100) (fun _ => ch0)).cells 65 = Material.SAND ∧
    (updateSimulation sandAgeGrid (List.range 100) (fun _ => ch0)).age 65 = 7 ∧
    (7 : Nat) ≠ 0 :=
  ⟨by decide, by decide, by decide, by decide⟩

/-- C3 (amended): paint strokes reset age to 0 at every cell whose material
they change (each paint write pairs the cell write with an age reset), but
movement and conversion rules inside step() can change the material stored at
a cell while leaving a nonzero age behind. -/
theorem C3_paint_age_reset (g : Grid) (px py qx qy : Int) (r : Nat) (mat : Material)
    (er : Bool) (k : Nat)
    (hk : (drawAtCurrentPosition g px py qx qy r mat er).cells k ≠ g.cells k) :
    (drawAtCurrentPosition g px py qx qy r mat er).age k = 0 :=
  paintFold_age_zero g.width g.height mat er (interpPoints px py qx qy) (brushOffsets r) g.cells
    { next := g.cells, age := g.age } (fun _ hne => absurd rfl hne) k hk

/-- C3 witness: a concrete stroke changes cell (2,2) of a 5x5 grid and its age
is 0 afterwards. -/
theorem C3_paint_age_reset_witness :
    (drawAtCurrentPosition g5 2 2 2 2 1 Material.SAND false).cells 12 ≠ g5.cells 12 ∧
    (drawAtCurrentPosition g5 2 2 2 2 1 Material.SAND false).age 12 = 0 :=
  ⟨by decide, C3_paint_age_reset g5 2 2 2 2 1 Material.SAND false 12 (by decide)⟩

/-- C4: for every interior Salt cell whose cell directly below holds Water at
the start of a tick, there is an outcome of the random draws (a traversal
permutation together with draw assignments) under which that cell holds Water
after the step(). -/
theorem C4_salt_dissolves_to_water (g : Grid) (i : Nat)
    (hnb : ¬ isBorderIdx g.width g.height i) (hi : i < g.width * g.height)
    (hsalt : g.cells i = Material.SALT) (hwat : g.cells (i + g.width) = Material.WATER) :
    ∃ order ch, order.Perm (List.range (g.width * g.height)) ∧
      (updateSimulation g order ch).cells i = Material.WATER := by
  refine ⟨(List.range (g.width * g.height)).erase i ++ [i], fun _ => ch0, ?_, ?_⟩
  · have hmem : i ∈ List.range (g.width * g.height) := List.mem_range.mpr hi
    exact List.Perm.trans
      (List.perm_append_singleton i ((List.range (g.width * g.height)).erase i))
      (List.Perm.symm (List.perm_cons_erase hmem))
  · exact updateSimulation_salt_last _ hnb hsalt hwat _

/-- C4 witness: the theorem instantiated at the concrete salt-over-water
grid. -/
theorem C4_salt_dissolves_to_water_witness :
    ∃ order ch, order.Perm (List.range (saltGrid.width * saltGrid.height)) ∧
      (updateSimulation saltGrid order ch).cells 45 = Material.WATER :=
  C4_salt_dissolves_to_water saltGrid 45 (by decide) (by decide) (by decide) (by decide)

/-- C5 counterexample: the Water extinguish rule reads the fire locations from
the CURRENT buffer, not from the next buffer.  At a concrete state in which
the current buffer holds Fire at index 11 while the next buffer already holds
Empty there (the fire has been relocated this tick), the source rule converts
index 11 to Smoke, whereas the variant modelled from the words of the
specification (reading next) leaves it Empty. -/
theorem C5_counterexample_reads_current :
    c5cur 11 = Material.FIRE ∧ c5s.next 11 = Material.EMPTY ∧
    (updateLiquid 5 c5cur ch0 12 Material.WATER c5s).next 11 = Material.SMOKE ∧
    (updateLiquidSpecC5 5 c5cur ch0 12 Material.WATER c5s).next 11 = Material.EMPTY :=
  ⟨by decide, by decide, by decide, by decide⟩

/-- C5 (amended): every per-material rule, the Water extinguish rule included,
reads neighbor state from the current buffer only.  Whenever a Water cell
makes no down or diagonal move (so the extinguish scan runs), every cell of
its 3x3 neighborhood that holds Fire in the CURRENT buffer is converted to
Smoke in the next buffer, for every prior content of the next buffer and
every draw assignment. -/
theorem C5_extinguish_reads_current (w : Nat) (cur : Nat → Material) (c : Choice) (i : Nat)
    (s : SimState) (j : Nat)
    (hdown : ¬ (cur (i + w) = Material.EMPTY ∨
      ((MATERIALS (cur (i + w))).density < (MATERIALS Material.WATER).density ∧
        cur (i + w) ≠ Material.WALL)))
    (hd1 : ¬ (cur (i + w + 1) = Material.EMPTY ∨
      ((MATERIALS (cur (i + w + 1))).density < (MATERIALS Material.WATER).density ∧
        cur (i + w + 1) ≠ Material.WALL)))
    (hd2 : ¬ (cur (i + w - 1) = Material.EMPTY ∨
      ((MATERIALS (cur (i + w - 1))).density < (MATERIALS Material.WATER).density ∧
        cur (i + w - 1) ≠ Material.WALL)))
    (hj : j ∈ neighborhood9 w i) (hfire : cur j = Material.FIRE) :
    (updateLiquid w cur c i Material.WATER s).next j = Material.SMOKE := by
  simp only [updateLiquid]
  rw [if_neg hdown]
  have hD1 : ¬ (cur (if c.liqDir = true then i + w + 1 else i + w - 1) = Material.EMPTY ∨
      ((MATERIALS (cur (if c.liqDir = true then i + w + 1 else i + w - 1))).density <
          (MATERIALS Material.WATER).density ∧
        cur (if c.liqDir = true then i + w + 1 else i + w - 1) ≠ Material.WALL)) := by
    split
    · exact hd1
    · exact hd2
  have hD2 : ¬ (cur (if c.liqDir = true then i + w - 1 else i + w + 1) = Material.EMPTY ∨
      ((MATERIALS (cur (if c.liqDir = true then i + w - 1 else i + w + 1))).density <
          (MATERIALS Material.WATER).density ∧
        cur (if c.liqDir = true then i + w - 1 else i + w + 1) ≠ Material.WALL)) := by
    split
    · exact hd2
    · exact hd1
  rw [if_neg hD1, if_neg hD2]
  exact extinguishScan_fire _ hj hfire

/-- C5 witness: the amended theorem instantiated at the concrete comparison
state, where the next buffer disagrees with the current buffer at the fire
position. -/
theorem C5_extinguish_reads_current_witness :
    (updateLiquid 5 c5cur ch0 12 Material.WATER c5s).next 11 = Material.SMOKE :=
  C5_extinguish_reads_current 5 c5cur ch0 12 c5s 11 (by decide) (by decide) (by decide)
    (by decide) (by decide)

/-- C6 counterexample: with the erase flag set, a stroke whose painted
material is Sand (not Wall) changes an interior Wall cell to Empty, so the
claim that no Wall cell changes unless the painted material is Wall, for
every erase flag, is false. -/
theorem C6_counterexample_erase_overwrites_wall :
    wallGrid.cells 12 = Material.WALL ∧ Material.SAND ≠ Material.WALL ∧
    (drawAtCurrentPosition wallGrid 2 2 2 2 1 Material.SAND true).cells 12 = Material.EMPTY :=
  ⟨by decide, by decide, by decide⟩

/-- C6 (amended): after any paint stroke, only cells within the Euclidean
brush radius of some interpolated stroke point may have changed (cells or
ages), and no Wall cell changes unless the painted material is Wall OR the
erase flag is set. -/
theorem C6_paint_containment (g : Grid) (px py qx qy : Int) (r : Nat) (mat : Material)
    (er : Bool) :
    (∀ k, ((drawAtCurrentPosition g px py qx qy r mat er).cells k ≠ g.cells k ∨
        (drawAtCurrentPosition g px py qx qy r mat er).age k ≠ g.age k) →
      ∃ p ∈ interpPoints px py qx qy, ∃ q : Int × Int,
        (q.1 - p.1) * (q.1 - p.1) + (q.2 - p.2) * (q.2 - p.2) ≤ (r : Int) * (r : Int) ∧
        0 < q.1 ∧ q.1 < (g.width : Int) - 1 ∧ 0 < q.2 ∧ q.2 < (g.height : Int) - 1 ∧
        k = (q.1 + q.2 * (g.width : Int)).toNat) ∧
    (mat ≠ Material.WALL → er = false → ∀ k, g.cells k = Material.WALL →
      (drawAtCurrentPosition g px py qx qy r mat er).cells k = g.cells k) :=
  ⟨paintFold_containment g.width g.height mat er r (interpPoints px py qx qy)
      { next := g.cells, age := g.age },
   fun hmat her k hk => paintFold_wall g.width g.height mat er (interpPoints px py qx qy)
      (brushOffsets r) hmat her { next := g.cells, age := g.age } k hk⟩

/-- C6 witness: both parts at a concrete stroke — the changed cell (2,2) lies
in the brush disk of a stroke point, and the border Wall at index 0 is
untouched by a non-Wall non-erase stroke. -/
theorem C6_paint_containment_witness :
    (∃ p ∈ interpPoints 2 2 2 2, ∃ q : Int × Int,
      (q.1 - p.1) * (q.1 - p.1) + (q.2 - p.2) * (q.2 - p.2) ≤ ((1 : Nat) : Int) * ((1 : Nat) : Int) ∧
      0 < q.1 ∧ q.1 < (g5.width : Int) - 1 ∧ 0 < q.2 ∧ q.2 < (g5.height : Int) - 1 ∧
      12 = (q.1 + q.2 * (g5.width : Int)).toNat) ∧
    (drawAtCurrentPosition g5 2 2 2 2 1 Material.SAND false).cells 0 = g5.cells 0 :=
  ⟨(C6_paint_containment g5 2 2 2 2 1 Material.SAND false).1 12 (Or.inl (by decide)),
   (C6_paint_containment g5 2 2 2 2 1 Material.SAND false).2 (by decide) rfl 0 (by decide)⟩

/-- C7 counterexample: the source performs no dimension validation at all.
The model of the specification (failing with InvalidDimension when a
dimension is below 1) errors at width 0, while the source initialization and
resize simply build a grid with those dimensions. -/
theorem C7_counterexample_no_validation :
    specInitGrid 0 5 = Except.error SimError.invalidDimension ∧
    (initGrid 0 5).width = 0 ∧ (initGrid 0 5).height = 5 ∧
    specResizeGrid (initGrid 3 3) 0 4 = Except.error SimError.invalidDimension ∧
    (handleResize (initGrid 3 3) 0 4).width = 0 ∧
    (handleResize (initGrid 3 3) 0 4).height = 4 :=
  ⟨rfl, rfl, rfl, rfl, rfl, rfl⟩

/-- C7 (amended): initialization and resize perform no dimension validation
and never fail: for every requested width and height (including values below
1) they return a grid with exactly those dimensions, and resize preserves the
cells and ages of the overlapping non-border region. -/
theorem C7_total_without_validation (g : Grid) (w h x y : Nat)
    (hx : x < min w g.width) (hy : y < min h g.height)
    (hnb : ¬ isBorderIdx w h (x + y * w)) :
    (handleResize g w h).width = w ∧ (handleResize g w h).height = h ∧
    (initGrid w h).width = w ∧ (initGrid w h).height = h ∧
    (handleResize g w h).cells (x + y * w) = g.cells (x + y * g.width) ∧
    (handleResize g w h).age (x + y * w) = g.age (x + y * g.width) := by
  have hw : 0 < w := by omega
  have hxw : x < w := by omega
  have hmod : (x + y * w) % w = x := by
    rw [Nat.add_mul_mod_self_right]
    exact Nat.mod_eq_of_lt hxw
  have hdiv : (x + y * w) / w = y := by
    rw [Nat.add_mul_div_right _ _ hw, Nat.div_eq_of_lt hxw]
    omega
  refine ⟨rfl, rfl, rfl, rfl, ?_, ?_⟩
  · simp only [handleResize]
    rw [if_neg (fun hc => hnb hc.2), hmod, hdiv, if_pos ⟨hx, hy⟩]
  · simp only [handleResize]
    rw [hmod, hdiv, if_pos ⟨hx, hy⟩]

/-- C7 witness: a concrete resize from 4x4 to 3x6 preserving the interior
cell (1,1). -/
theorem C7_total_without_validation_witness :
    (handleResize (initGrid 4 4) 3 6).width = 3 ∧ (handleResize (initGrid 4 4) 3 6).height = 6 ∧
    (initGrid 3 6).width = 3 ∧ (initGrid 3 6).height = 6 ∧
    (handleResize (initGrid 4 4) 3 6).cells (1 + 1 * 3) = (initGrid 4 4).cells (1 + 1 * 4) ∧
    (handleResize (initGrid 4 4) 3 6).age (1 + 1 * 3) = (initGrid 4 4).age (1 + 1 * 4) :=
  C7_total_without_validation (initGrid 4 4) 3 6 1 1 (by decide) (by decide) (by decide)

/-- C8: the settling scenario.  On the 10x10 grid whose interior is all Empty
except Sand at (5,5), after exactly one step() — for every traversal
permutation and every draw assignment — the cell (5,6) directly below holds
Sand and (5,5) holds Empty. -/
theorem C8_sand_settles (order : List Nat) (ch : Nat → Choice)
    (hp : order.Perm (List.range 100)) :
    (updateSimulation sandGrid order ch).cells 65 = Material.SAND ∧
    (updateSimulation sandGrid order ch).cells 55 = Material.EMPTY := by
  have h55 : 55 ∈ order := hp.mem_iff.mpr (List.mem_range.mpr (by omega))
  exact sandFold_with ch order { next := sandCells, age := fun _ => 0 } h55

/-- C8 witness: the theorem at the identity permutation and the all-false
draws. -/
theorem C8_sand_settles_witness :
    (updateSimulation sandGrid (List.range 100) (fun _ => ch0)).cells 65 = Material.SAND ∧
    (updateSimulation sandGrid (List.range 100) (fun _ => ch0)).cells 55 = Material.EMPTY :=
  C8_sand_settles (List.range 100) (fun _ => ch0) (List.Perm.refl _)

/-- C9: paint writes only to interior cells.  Every cell whose material or age
a stroke changes has column in [1, width-2] and row in [1, height-2]; border
cells are never modified, so paint unconditionally preserves the border-wall
invariant, for every stroke, every material (Wall included) and every erase
flag. -/
theorem C9_paint_interior_only (g : Grid) (px py qx qy : Int) (r : Nat) (mat : Material)
    (er : Bool) :
    (∀ k, ((drawAtCurrentPosition g px py qx qy r mat er).cells k ≠ g.cells k ∨
        (drawAtCurrentPosition g px py qx qy r mat er).age k ≠ g.age k) →
      1 ≤ k % g.width ∧ k % g.width < g.width - 1 ∧
      1 ≤ k / g.width ∧ k / g.width < g.height - 1) ∧
    (borderWall g → borderWall (drawAtCurrentPosition g px py qx qy r mat er)) := by
  have hmain := paintFold_interior g.width g.height mat er (interpPoints px py qx qy)
    (brushOffsets r) { next := g.cells, age := g.age }
  refine ⟨hmain, ?_⟩
  intro hb k hk hbk
  have hk2 : k < g.width * g.height := hk
  have hbk2 : isBorderIdx g.width g.height k := hbk
  by_cases hc : (drawAtCurrentPosition g px py qx qy r mat er).cells k = g.cells k
  · rw [hc]
    exact hb k hk2 hbk2
  · have hint := hmain k (Or.inl hc)
    unfold isBorderIdx at hbk2
    rcases hbk2 with h1 | h1 | h1 | h1 <;> omega

/-- C9 witness: a concrete Wall-painting stroke — the changed cell (2,2) has
interior coordinates, and the border-wall invariant survives the stroke. -/
theorem C9_paint_interior_only_witness :
    (1 ≤ 12 % g5.width ∧ 12 % g5.width < g5.width - 1 ∧
      1 ≤ 12 / g5.width ∧ 12 / g5.width < g5.height - 1) ∧
    borderWall (drawAtCurrentPosition g5 2 2 2 2 1 Material.WALL false) :=
  ⟨(C9_paint_interior_only g5 2 2 2 2 1 Material.WALL false).1 12 (Or.inl (by decide)),
   (C9_paint_interior_only g5 2 2 2 2 1 Material.WALL false).2 (by decide)⟩

/-- C10: smoke movement does not carry age.  The smoke rule never writes any
entry of the age array (neither the source nor the destination), so moved
smoke inherits whatever age value the destination cell previously held; by
contrast, a rising Fire cell copies its own age into the destination cell. -/
theorem C10_smoke_age_not_carried (w : Nat) (cur : Nat → Material) (c : Choice) (i : Nat)
    (s : SimState) (hw : 0 < w) (hiw : w ≤ i) :
    ((updateSmoke w cur c i s).age = s.age) ∧
    (cur (i - w) = Material.EMPTY → c.fireRise = true →
      (updateFire w cur c i s).age (i - w) = s.age i ∧
      (updateFire w cur c i s).next (i - w) = Material.FIRE) := by
  constructor
  · simp only [updateSmoke]
    split_ifs <;> rfl
  · intro hab hr
    simp only [updateFire]
    rw [if_pos ⟨hab, hr⟩]
    constructor
    · exact Function.update_same _ _ _
    · dsimp only
      rw [Function.update_noteq (by omega), Function.update_same]

/-- C10 witness: the theorem at width 10 and index 55 over the settling
buffer, with the fire-rise draw set. -/
theorem C10_smoke_age_not_carried_witness :
    ((updateSmoke 10 sandCells ch1 55 ⟨sandCells, sandAgeGrid.age⟩).age = sandAgeGrid.age) ∧
    ((updateFire 10 sandCells ch1 55 ⟨sandCells, sandAgeGrid.age⟩).age 45 = sandAgeGrid.age 55 ∧
      (updateFire 10 sandCells ch1 55 ⟨sandCells, sandAgeGrid.age⟩).next 45 = Material.FIRE) :=
  ⟨(C10_smoke_age_not_carried 10 sandCells ch1 55 ⟨sandCells, sandAgeGrid.age⟩
      (by decide) (by decide)).1,
   (C10_smoke_age_not_carried 10 sandCells ch1 55 ⟨sandCells, sandAgeGrid.age⟩
      (by decide) (by decide)).2 (by decide) rfl⟩

end FallingSand
